import Mathlib

/-!
Verification of the schema-to-bindings generator and session layer of the
nextcloud-passwords-client library.

The Rust source expands one field-tagged struct declaration (the
`create_binding!` rewriter in `src/utils.rs`) into a family of types: the
entity record, its versioned sub-record, create/update builders and a search
builder, plus a uniform CRUD call surface (`create_calls!`) and a session
lifecycle (`src/lib.rs`).  This file gives a shallow embedding of those
parts and proves the spec's claims about them.
-/

set_option autoImplicit false

namespace Npc

/-! ## Field tags

The tag tokens recognised by the `create_binding!` rules in `src/utils.rs`
(lines 542-771): `create(required)`, `create(optional)`, `update(required)`,
`update(optional)`, `search`, `versioned(true)`, `versioned(false)`.  Any
other token matches no rule and is a schema-definition error, so the embedded
tag alphabet is exactly these seven. -/
inductive Tag where
  | createRequired
  | createOptional
  | updateRequired
  | updateOptional
  | search
  | versionedTrue
  | versionedFalse
deriving DecidableEq, Repr

/-- One declared schema field: its name and its (ordered) tag list, as written
between `[` and `]` in a `create_binding!` invocation. -/
structure FieldDecl where
  name : String
  tags : List Tag
deriving DecidableEq, Repr

/-- The seven accumulators threaded through the `create_binding!` recursion
(`@create_new`, `@create`, `@update_new`, `@update`, `@search`, `@versioned`,
`@not_versioned` in `src/utils.rs`).  Each holds field names in the order the
rules appended them. -/
structure Accum where
  create_new : List String := []
  create : List String := []
  update_new : List String := []
  update : List String := []
  search : List String := []
  versioned : List String := []
  not_versioned : List String := []
deriving DecidableEq, Repr

/-- One rule application of `create_binding!`: the rule keyed by the first tag
of the current field appends that field to the matching accumulator
(`src/utils.rs` lines 542-742, one arm per tag). -/
def pushTag (acc : Accum) (f : String) : Tag → Accum
  | .createRequired => { acc with create_new := acc.create_new ++ [f] }
  | .createOptional => { acc with create := acc.create ++ [f] }
  | .updateRequired => { acc with update_new := acc.update_new ++ [f] }
  | .updateOptional => { acc with update := acc.update ++ [f] }
  | .search => { acc with search := acc.search ++ [f] }
  | .versionedTrue => { acc with versioned := acc.versioned ++ [f] }
  | .versionedFalse => { acc with not_versioned := acc.not_versioned ++ [f] }

/-- Tag consumption for one field.  Each `create_binding!` rule consumes the
field's first tag and re-queues the field with its remaining tags ahead of the
remaining fields, so the whole tag list of a field is consumed before the next
field is examined; a field whose tag list is empty is dropped by the final
"Nothing" rule (`src/utils.rs` lines 745-771) without touching any
accumulator. -/
def consumeTags (acc : Accum) (f : String) : List Tag → Accum
  | [] => acc
  | t :: ts => consumeTags (pushTag acc f t) f ts

/-- The `create_binding!` partitioner: fold the rule machine over the declared
fields in declaration order, starting from empty accumulators. -/
def create_binding (fields : List FieldDecl) : Accum :=
  fields.foldl (fun acc fd => consumeTags acc fd.name fd.tags) {}

/-! ### Projection machinery for uniform lemmas over the seven accumulators -/

/-- The accumulator a given tag's rule appends to. -/
def Accum.proj (acc : Accum) : Tag → List String
  | .createRequired => acc.create_new
  | .createOptional => acc.create
  | .updateRequired => acc.update_new
  | .updateOptional => acc.update
  | .search => acc.search
  | .versionedTrue => acc.versioned
  | .versionedFalse => acc.not_versioned

theorem pushTag_proj (acc : Accum) (f : String) (u t : Tag) :
    (pushTag acc f u).proj t = acc.proj t ++ (if u = t then [f] else []) := by
  cases u <;> cases t <;> simp [pushTag, Accum.proj]

theorem consumeTags_proj (f : String) (t : Tag) :
    ∀ (ts : List Tag) (acc : Accum),
      (consumeTags acc f ts).proj t = acc.proj t ++ List.replicate (ts.count t) f := by
  intro ts
  induction ts with
  | nil => intro acc; simp [consumeTags]
  | cons u ts ih =>
    intro acc
    rw [consumeTags, ih, pushTag_proj]
    by_cases h : u = t
    · subst h
      simp [List.count_cons, List.replicate_succ, List.append_assoc]
    · have hbeq : (u == t) = false := by simpa using h
      simp [List.count_cons, hbeq, h]

/-- How many occurrences of each tag land in each accumulator, field by
field. -/
def tagSel (t : Tag) : List FieldDecl → List String
  | [] => []
  | fd :: rest => List.replicate (fd.tags.count t) fd.name ++ tagSel t rest

theorem foldl_consumeTags_proj (t : Tag) :
    ∀ (fields : List FieldDecl) (acc : Accum),
      (fields.foldl (fun a fd => consumeTags a fd.name fd.tags) acc).proj t
        = acc.proj t ++ tagSel t fields := by
  intro fields
  induction fields with
  | nil => intro acc; simp [tagSel]
  | cons fd rest ih =>
    intro acc
    rw [List.foldl_cons, ih, consumeTags_proj, tagSel, List.append_assoc]

theorem create_binding_proj (t : Tag) (fields : List FieldDecl) :
    (create_binding fields).proj t = tagSel t fields := by
  rw [create_binding, foldl_consumeTags_proj]
  cases t <;> simp [Accum.proj]

/-! ## Valid entity schemas

The spec's data model (§3): each field carries a create-mode, an update-mode,
an optional versioned tag and a searchable flag; field names are unique within
a schema.  Such a field compiles to a tag list over the macro's tag
alphabet. -/

/-- create-mode / update-mode of the spec's field-tag record. -/
inductive Mode where
  | required
  | optional
  | none
deriving DecidableEq, Repr

/-- The spec's immutable field-tag record: create-mode, update-mode, an
optional `versioned(true/false)` tag and the `search` flag. -/
structure FieldTag where
  createMode : Mode := Mode.none
  updateMode : Mode := Mode.none
  versionedTag : Option Bool := Option.none
  searchTag : Bool := false
deriving DecidableEq, Repr

/-- One field of a valid entity schema. -/
structure SchemaField where
  name : String
  tag : FieldTag
deriving DecidableEq, Repr

/-- Tag tokens contributed by a create-mode or update-mode. -/
def modeTags (m : Mode) (req opt : Tag) : List Tag :=
  match m with
  | .required => [req]
  | .optional => [opt]
  | .none => []

/-- Compile the spec's field-tag record to the macro's token list. -/
def tagsOf (t : FieldTag) : List Tag :=
  modeTags t.createMode .createRequired .createOptional ++
  modeTags t.updateMode .updateRequired .updateOptional ++
  (match t.versionedTag with
   | some true => [.versionedTrue]
   | some false => [.versionedFalse]
   | Option.none => []) ++
  (if t.searchTag then [.search] else [])

def toFields (s : List SchemaField) : List FieldDecl :=
  s.map (fun f => ⟨f.name, tagsOf f.tag⟩)

/-- Partition a valid schema with the `create_binding!` machine. -/
def partitionSchema (s : List SchemaField) : Accum :=
  create_binding (toFields s)

/-- A predicate on schema fields deciding whether the tag list compiled from
the field contains the given tag token. -/
def tagPred (t : Tag) (f : SchemaField) : Bool :=
  match t with
  | .createRequired => f.tag.createMode = Mode.required
  | .createOptional => f.tag.createMode = Mode.optional
  | .updateRequired => f.tag.updateMode = Mode.required
  | .updateOptional => f.tag.updateMode = Mode.optional
  | .search => f.tag.searchTag
  | .versionedTrue => f.tag.versionedTag = some true
  | .versionedFalse => f.tag.versionedTag = some false

theorem count_tagsOf (t : Tag) (f : SchemaField) :
    (tagsOf f.tag).count t = if tagPred t f then 1 else 0 := by
  obtain ⟨name, cm, um, vt, st⟩ := f
  cases cm <;> cases um <;> rcases vt with _ | b <;>
    first
    | (cases st <;> cases t <;> rfl)
    | (cases b <;> cases st <;> cases t <;> rfl)

/-- Each accumulator of the partition of a valid schema is the
declaration-order filter of the schema by the corresponding tag predicate. -/
theorem partitionSchema_proj (t : Tag) (s : List SchemaField) :
    (partitionSchema s).proj t = (s.filter (tagPred t)).map SchemaField.name := by
  rw [partitionSchema, create_binding_proj]
  induction s with
  | nil => rfl
  | cons f rest ih =>
    rw [toFields, List.map_cons, tagSel, ← toFields, ih, count_tagsOf]
    by_cases h : tagPred t f
    · simp [h, List.filter_cons, List.replicate_one]
    · simp [h, List.filter_cons]

/-- Helper: when the name-image of a list has no duplicates, a name occurs in
the name-image of the filtered list exactly when the predicate holds at the
element carrying that name. -/
theorem name_mem_filter_map {α β : Type} (nm : α → β) {p : α → Bool} :
    ∀ {s : List α}, (s.map nm).Nodup →
      ∀ {f : α}, f ∈ s →
        (nm f ∈ (s.filter p).map nm ↔ p f) := by
  intro s
  induction s with
  | nil => intro _ f hf; cases hf
  | cons g rest ih =>
    intro hnodup f hf
    rw [List.map_cons, List.nodup_cons] at hnodup
    rcases List.mem_cons.mp hf with rfl | hf'
    · constructor
      · intro hmem
        by_contra hp
        rw [List.filter_cons_of_neg (by simpa using hp)] at hmem
        rcases List.mem_map.mp hmem with ⟨g', hg', hname⟩
        exact hnodup.1 (hname ▸ List.mem_map_of_mem _ (List.mem_of_mem_filter hg'))
      · intro hp
        rw [List.filter_cons_of_pos hp]
        exact List.mem_cons_self _ _
    · have hne : nm f ≠ nm g := by
        intro h
        exact hnodup.1 (h ▸ List.mem_map_of_mem nm hf')
      by_cases hg : p g
      · rw [List.filter_cons_of_pos hg, List.map_cons]
        rw [List.mem_cons]
        simp only [hne, false_or]
        exact ih hnodup.2 hf'
      · rw [List.filter_cons_of_neg (by simpa using hg)]
        exact ih hnodup.2 hf'

/-- Membership in an accumulator of a valid schema's partition is decided by
the field's own tag record. -/
theorem mem_partitionSchema_proj {s : List SchemaField}
    (hnodup : (s.map SchemaField.name).Nodup) (t : Tag)
    {f : SchemaField} (hf : f ∈ s) :
    f.name ∈ (partitionSchema s).proj t ↔ tagPred t f := by
  rw [partitionSchema_proj]
  exact name_mem_filter_map SchemaField.name hnodup hf

/-- Sample fields shaped like the `Tag` entity of `src/tag.rs`. -/
def idField : SchemaField :=
  ⟨"id", { updateMode := Mode.required, versionedTag := some false }⟩

def labelField : SchemaField :=
  ⟨"label", { createMode := Mode.required, updateMode := Mode.required,
              versionedTag := some true }⟩

def createdField : SchemaField :=
  ⟨"created", { versionedTag := some false, searchTag := true }⟩

def editedField : SchemaField :=
  ⟨"edited", { createMode := Mode.optional, updateMode := Mode.optional,
               versionedTag := some true, searchTag := true }⟩

/-- A sample valid schema, shaped like the `Tag` entity of `src/tag.rs`. -/
def sampleSchema : List SchemaField :=
  [idField, labelField, createdField, editedField]

/-- C1: for every valid entity schema (ordered field list with unique names,
each field tagged with create-mode, update-mode, versioned and search tags),
the `create_binding!` partitioner places every field with create-mode ≠ none in
exactly one of the create-required / create-optional accumulators (the one
matching its mode), every field with update-mode ≠ none in exactly one of the
update-required / update-optional accumulators, every generated set preserves
declaration order (each set is the order-preserving filter of the schema by its
tag), and a field may belong to several category sets at once (versioned(true)
AND create-required lands in both). -/
theorem c1_partition_correct (s : List SchemaField)
    (hnodup : (s.map SchemaField.name).Nodup) :
    (∀ f ∈ s, f.tag.createMode ≠ Mode.none →
      (f.tag.createMode = Mode.required →
        f.name ∈ (partitionSchema s).create_new ∧
        f.name ∉ (partitionSchema s).create) ∧
      (f.tag.createMode = Mode.optional →
        f.name ∈ (partitionSchema s).create ∧
        f.name ∉ (partitionSchema s).create_new)) ∧
    (∀ f ∈ s, f.tag.updateMode ≠ Mode.none →
      (f.tag.updateMode = Mode.required →
        f.name ∈ (partitionSchema s).update_new ∧
        f.name ∉ (partitionSchema s).update) ∧
      (f.tag.updateMode = Mode.optional →
        f.name ∈ (partitionSchema s).update ∧
        f.name ∉ (partitionSchema s).update_new)) ∧
    ((partitionSchema s).create_new
        = (s.filter fun f => f.tag.createMode = Mode.required).map SchemaField.name ∧
     (partitionSchema s).create
        = (s.filter fun f => f.tag.createMode = Mode.optional).map SchemaField.name ∧
     (partitionSchema s).update_new
        = (s.filter fun f => f.tag.updateMode = Mode.required).map SchemaField.name ∧
     (partitionSchema s).update
        = (s.filter fun f => f.tag.updateMode = Mode.optional).map SchemaField.name ∧
     (partitionSchema s).search
        = (s.filter fun f => f.tag.searchTag).map SchemaField.name ∧
     (partitionSchema s).versioned
        = (s.filter fun f => f.tag.versionedTag = some true).map SchemaField.name ∧
     (partitionSchema s).not_versioned
        = (s.filter fun f => f.tag.versionedTag = some false).map SchemaField.name) ∧
    (∀ f ∈ s, f.tag.versionedTag = some true → f.tag.createMode = Mode.required →
      f.name ∈ (partitionSchema s).versioned ∧
      f.name ∈ (partitionSchema s).create_new) := by
  refine ⟨?_, ?_, ?_, ?_⟩
  · intro f hf _
    constructor
    · intro hreq
      refine ⟨(mem_partitionSchema_proj hnodup .createRequired hf).mpr ?_, ?_⟩
      · simp [tagPred, hreq]
      · intro hmem
        have := (mem_partitionSchema_proj hnodup .createOptional hf).mp hmem
        simp [tagPred, hreq] at this
    · intro hopt
      refine ⟨(mem_partitionSchema_proj hnodup .createOptional hf).mpr ?_, ?_⟩
      · simp [tagPred, hopt]
      · intro hmem
        have := (mem_partitionSchema_proj hnodup .createRequired hf).mp hmem
        simp [tagPred, hopt] at this
  · intro f hf _
    constructor
    · intro hreq
      refine ⟨(mem_partitionSchema_proj hnodup .updateRequired hf).mpr ?_, ?_⟩
      · simp [tagPred, hreq]
      · intro hmem
        have := (mem_partitionSchema_proj hnodup .updateOptional hf).mp hmem
        simp [tagPred, hreq] at this
    · intro hopt
      refine ⟨(mem_partitionSchema_proj hnodup .updateOptional hf).mpr ?_, ?_⟩
      · simp [tagPred, hopt]
      · intro hmem
        have := (mem_partitionSchema_proj hnodup .updateRequired hf).mp hmem
        simp [tagPred, hopt] at this
  · exact ⟨partitionSchema_proj .createRequired s, partitionSchema_proj .createOptional s,
      partitionSchema_proj .updateRequired s, partitionSchema_proj .updateOptional s,
      partitionSchema_proj .search s, partitionSchema_proj .versionedTrue s,
      partitionSchema_proj .versionedFalse s⟩
  · intro f hf hv hreq
    refine ⟨(mem_partitionSchema_proj hnodup .versionedTrue hf).mpr ?_,
      (mem_partitionSchema_proj hnodup .createRequired hf).mpr ?_⟩
    · simp [tagPred, hv]
    · simp [tagPred, hreq]

/-- C1 witness at the sample schema: `label` (create-required, versioned) is in
the create-required and versioned sets but not the create-optional set, and
`edited` (create-optional) is in create-optional but not create-required. -/
theorem c1_partition_correct_witness :
    "label" ∈ (partitionSchema sampleSchema).create_new ∧
    "label" ∉ (partitionSchema sampleSchema).create ∧
    "label" ∈ (partitionSchema sampleSchema).versioned ∧
    "edited" ∈ (partitionSchema sampleSchema).create ∧
    "edited" ∉ (partitionSchema sampleSchema).create_new := by
  have h := c1_partition_correct sampleSchema (by decide)
  have hlabel : labelField ∈ sampleSchema := by decide
  have hedited : editedField ∈ sampleSchema := by decide
  have h1 := (h.1 _ hlabel (by decide)).1 rfl
  have h4 := (h.2.2.2 _ hlabel rfl rfl).1
  have h2 := (h.1 _ hedited (by decide)).2 rfl
  exact ⟨h1.1, h1.2, h4, h2.1, h2.2⟩

/-! ## The generated entity struct -/

/-- The flat own fields of the generated entity struct `$name`: the output
rule of `create_binding!` (`src/utils.rs` lines 402-426) emits exactly the
`@not_versioned` accumulator as flat fields, next to one `#[serde(flatten)]`
field `versioned` holding the `[<Versioned $name>]` sub-struct. -/
def entityFields (fields : List FieldDecl) : List String :=
  (create_binding fields).not_versioned

/-- The fields of the generated `[<Versioned $name>]` sub-struct: exactly the
`@versioned` accumulator. -/
def versionedEntityFields (fields : List FieldDecl) : List String :=
  (create_binding fields).versioned

/-- C2 (evaluation at the failing input): the `Password` field
`revision : uuid::Uuid []` of `src/password.rs` carries no tags.  The claim
places such a field in the not-versioned set, making it a flat field of the
generated entity struct; but the "Nothing" rule of `create_binding!`
(`src/utils.rs` lines 745-771) re-emits the accumulators without the current
field, so an untagged field lands in no accumulator at all and is absent from
the generated entity struct. -/
theorem c2_emptyTag_field_dropped :
    create_binding [⟨"revision", []⟩] = ({} : Accum) ∧
    "revision" ∉ entityFields [⟨"revision", []⟩] ∧
    entityFields [⟨"revision", []⟩] = [] := by
  refine ⟨rfl, ?_, rfl⟩
  intro h
  simp [entityFields, create_binding, consumeTags, List.foldl] at h

/-! ## JSON values and the serde model

`Json` is the shallow embedding of `serde_json::Value`; numbers are modelled
as integers (the values the claims exercise).  serde semantics used below:
an `#[serde(untagged)]` newtype variant serializes as its inner value and an
untagged tuple variant as a JSON sequence of its fields; a field marked
`#[serde(skip_serializing_if = "Option::is_none")]` emits no member when it
is `None`; `#[serde(flatten)]` merges the sub-struct's members into the
containing object. -/
inductive Json where
  | null
  | bool (b : Bool)
  | num (n : Int)
  | str (s : String)
  | arr (elems : List Json)
  | obj (members : List (String × Json))
deriving Repr

/-- The comparison operators of `SearchQuery` (`src/utils.rs` lines 56-65). -/
inductive QueryKind where
  | Exact
  | Equals
  | NotEqual
  | LessThan
  | GreaterThan
  | LessOrEqual
  | GreaterOrEqual
deriving DecidableEq, Repr

/-- `SearchQuery` (`src/utils.rs` lines 50-54), with the value already
converted to a JSON value. -/
structure SearchQuery where
  value : Json
  query : QueryKind

/-- The `Criteria` wire shape (`src/utils.rs` lines 67-72): an untagged enum
of a bare value or an operator-tagged search pair. -/
inductive Criteria where
  | value (v : Json)
  | search (op : String) (v : Json)

/-- `SearchQuery::to_criteria` (`src/utils.rs` lines 74-87).  The source
first runs `serde_json::to_value` on the typed value; values here are already
`Json`, so that conversion is the identity and the `Result` is always `Ok`. -/
def to_criteria (q : SearchQuery) : Criteria :=
  match q.query with
  | .Exact => .value q.value
  | .Equals => .search "eq" q.value
  | .NotEqual => .search "ne" q.value
  | .LessThan => .search "lt" q.value
  | .GreaterThan => .search "gt" q.value
  | .LessOrEqual => .search "le" q.value
  | .GreaterOrEqual => .search "ge" q.value

/-- serde serialization of `Criteria`: the enum is `#[serde(untagged)]`, so
the newtype variant `Value` serializes as the bare inner value and the
two-field tuple variant `Search` serializes as a two-element JSON sequence
`[op, value]`. -/
def serializeCriteria : Criteria → Json
  | .value v => v
  | .search op v => .arr [.str op, v]

/-- An instance of a generated `[<$name Search>]` struct
(`src/utils.rs` lines 471-496): one `Option<Criteria>` slot per searchable
field, in generated field order. -/
structure SearchValue where
  criteria : List (String × Option Criteria)

/-- serde serialization of the search struct's members: every slot carries
`#[serde(skip_serializing_if = "Option::is_none")]`, so an unset slot emits no
member at all and a set slot emits the serialized criterion under the field's
name. -/
def serializeSearchMembers : List (String × Option Criteria) → List (String × Json)
  | [] => []
  | (_, Option.none) :: rest => serializeSearchMembers rest
  | (f, some c) :: rest => (f, serializeCriteria c) :: serializeSearchMembers rest

/-- serde serialization of the whole generated `[<$name Search>]` value. -/
def serializeSearch (sv : SearchValue) : Json :=
  .obj (serializeSearchMembers sv.criteria)

/-- C3 counterexample: the criterion built from an `Equals` query on the value
`3` serializes as the two-element array `["eq", 3]`, not as the one-key object
`{"eq": 3}` the claim states. -/
theorem c3_operator_array_counterexample :
    serializeCriteria (to_criteria ⟨Json.num 3, QueryKind.Equals⟩)
      = Json.arr [Json.str "eq", Json.num 3] ∧
    serializeCriteria (to_criteria ⟨Json.num 3, QueryKind.Equals⟩)
      ≠ Json.obj [("eq", Json.num 3)] :=
  ⟨rfl, fun h => Json.noConfusion h⟩

/-- The member a search slot contributes to the serialized object, if any. -/
def criterionMember (p : String × Option Criteria) : Option (String × Json) :=
  p.2.map (fun c => (p.1, serializeCriteria c))

theorem serializeSearchMembers_eq_filterMap (crits : List (String × Option Criteria)) :
    serializeSearchMembers crits = crits.filterMap criterionMember := by
  induction crits with
  | nil => rfl
  | cons p rest ih =>
    obtain ⟨f, _ | c⟩ := p <;>
      simp [serializeSearchMembers, List.filterMap_cons, ih, criterionMember]

/-- C3 amended: for every `EntitySearch` value, serialization omits every
unset criterion entirely (no member, in particular no null member), includes
exactly the set criteria in field order, and every set criterion serializes as
the bare value when its operator is `Exact` and as a two-element array
`[op, value]` with `op ∈ {eq, ne, lt, gt, le, ge}` for the other operators. -/
theorem c3_search_serialization (sv : SearchValue) (q : SearchQuery)
    (hnodup : (sv.criteria.map Prod.fst).Nodup) :
    serializeSearch sv = Json.obj (serializeSearchMembers sv.criteria) ∧
    (serializeSearchMembers sv.criteria).map Prod.fst
      = (sv.criteria.filter (fun p => p.2.isSome)).map Prod.fst ∧
    (∀ p ∈ sv.criteria, p.2 = Option.none →
      ∀ j, (p.1, j) ∉ serializeSearchMembers sv.criteria) ∧
    (∀ p ∈ sv.criteria, ∀ c, p.2 = some c →
      (p.1, serializeCriteria c) ∈ serializeSearchMembers sv.criteria) ∧
    (q.query = QueryKind.Exact → serializeCriteria (to_criteria q) = q.value) ∧
    (q.query ≠ QueryKind.Exact →
      ∃ op, op ∈ ["eq", "ne", "lt", "gt", "le", "ge"] ∧
        serializeCriteria (to_criteria q) = Json.arr [Json.str op, q.value]) := by
  have hkeys : (serializeSearchMembers sv.criteria).map Prod.fst
      = (sv.criteria.filter (fun p => p.2.isSome)).map Prod.fst := by
    rw [serializeSearchMembers_eq_filterMap]
    induction sv.criteria with
    | nil => rfl
    | cons p rest ih =>
      obtain ⟨f, _ | c⟩ := p <;>
        simpa [List.filterMap_cons, List.filter_cons, criterionMember] using ih
  refine ⟨rfl, hkeys, ?_, ?_, ?_, ?_⟩
  · intro p hp hnone j hj
    have hmem : p.1 ∈ (serializeSearchMembers sv.criteria).map Prod.fst :=
      List.mem_map_of_mem Prod.fst hj
    rw [hkeys] at hmem
    have := (name_mem_filter_map Prod.fst hnodup hp).mp hmem
    rw [hnone] at this
    simp [Option.isSome] at this
  · intro p hp c hc
    rw [serializeSearchMembers_eq_filterMap]
    exact List.mem_filterMap.mpr ⟨p, hp, by simp [criterionMember, hc]⟩
  · intro hexact
    simp [to_criteria, hexact, serializeCriteria]
  · intro hne
    cases hq : q.query
    case Exact => exact absurd hq hne
    all_goals simp [to_criteria, hq, serializeCriteria]

/-- A sample search value: an `Exact` criterion on `cseType`, an unset slot on
`favorite`. -/
def sampleSearch : SearchValue :=
  ⟨[("cseType", some (to_criteria ⟨Json.str "none", QueryKind.Exact⟩)),
    ("favorite", Option.none)]⟩

/-- C3 witness at a concrete search value and a concrete comparison query. -/
theorem c3_search_serialization_witness :
    ("cseType", Json.str "none") ∈ serializeSearchMembers sampleSearch.criteria ∧
    (∀ j, ("favorite", j) ∉ serializeSearchMembers sampleSearch.criteria) ∧
    (∃ op, op ∈ ["eq", "ne", "lt", "gt", "le", "ge"] ∧
      serializeCriteria (to_criteria ⟨Json.num 7, QueryKind.GreaterThan⟩)
        = Json.arr [Json.str op, Json.num 7]) := by
  have h := c3_search_serialization sampleSearch ⟨Json.num 7, QueryKind.GreaterThan⟩
    (by decide)
  refine ⟨?_, ?_, h.2.2.2.2.2 (by decide)⟩
  · exact h.2.2.2.1 _ (List.mem_cons_self _ _) _ rfl
  · intro j
    exact h.2.2.1 ("favorite", Option.none)
      (List.mem_cons_of_mem _ (List.mem_cons_self _ _)) rfl j

/-! ## Entity encoding and decoding (flatten semantics) -/

/-- An instance of a generated entity struct: the values of its flat
not-versioned fields and of the fields of its `versioned` sub-struct, each
list in generated field order. -/
structure EntityValue where
  notVersioned : List (String × Json)
  versioned : List (String × Json)
deriving Repr

/-- serde serialization of the generated entity struct: its own fields
followed by the members of the `#[serde(flatten)]` `versioned` sub-struct,
merged into one flat JSON object (`src/utils.rs` lines 403-426). -/
def encodeEntity (e : EntityValue) : Json :=
  .obj (e.notVersioned ++ e.versioned)

/-- First-match key lookup in a list of named fields or object members. -/
def lookupMember {α : Type} (k : String) : List (String × α) → Option α
  | [] => Option.none
  | (k', v) :: rest => if k' = k then some v else lookupMember k rest

/-- Decode the named fields in order from an object's members; fails when a
field is missing (serde's missing-field error). -/
def decodeFields (names : List String) (kvs : List (String × Json)) :
    Option (List (String × Json)) :=
  match names with
  | [] => some []
  | k :: rest =>
    match lookupMember k kvs, decodeFields rest kvs with
    | some v, some r => some ((k, v) :: r)
    | _, _ => Option.none

/-- serde deserialization of the generated entity struct with field-name
lists `nv` (own flat fields) and `v` (fields of the flattened `versioned`
sub-struct): both lists are read from the same flat object, and the decoded
value is separated back into the two logical parts. -/
def decodeEntity (nv v : List String) (j : Json) : Option EntityValue :=
  match j with
  | .obj kvs =>
    match decodeFields nv kvs, decodeFields v kvs with
    | some a, some b => some ⟨a, b⟩
    | _, _ => Option.none
  | _ => Option.none

theorem lookupMember_append {α : Type} (k : String) (a b : List (String × α)) :
    lookupMember k (a ++ b)
      = match lookupMember k a with
        | some v => some v
        | Option.none => lookupMember k b := by
  induction a with
  | nil => simp [lookupMember]
  | cons p rest ih =>
    obtain ⟨k', v'⟩ := p
    by_cases h : k' = k <;> simp [lookupMember, h, ih]

theorem lookupMember_eq_none {α : Type} {k : String} :
    ∀ {l : List (String × α)}, k ∉ l.map Prod.fst →
      lookupMember k l = Option.none := by
  intro l
  induction l with
  | nil => intro _; rfl
  | cons p rest ih =>
    intro h
    rw [List.map_cons, List.mem_cons] at h
    push_neg at h
    obtain ⟨k', v'⟩ := p
    have hne : k' ≠ k := fun hk => h.1 hk.symm
    simp only [lookupMember, if_neg hne]
    exact ih h.2

theorem lookupMember_eq_of_mem {α : Type} :
    ∀ {l : List (String × α)}, (l.map Prod.fst).Nodup →
      ∀ {p : String × α}, p ∈ l → lookupMember p.1 l = some p.2 := by
  intro l
  induction l with
  | nil => intro _ p hp; cases hp
  | cons q rest ih =>
    intro hnodup p hp
    rw [List.map_cons, List.nodup_cons] at hnodup
    rcases List.mem_cons.mp hp with rfl | hp'
    · simp [lookupMember]
    · have hne : q.1 ≠ p.1 := by
        intro h
        exact hnodup.1 (h ▸ List.mem_map_of_mem Prod.fst hp')
      obtain ⟨k', v'⟩ := q
      simpa [lookupMember, hne] using ih hnodup.2 hp'

theorem decodeFields_of_lookup :
    ∀ {l : List (String × Json)} {kvs : List (String × Json)},
      (∀ p ∈ l, lookupMember p.1 kvs = some p.2) →
      decodeFields (l.map Prod.fst) kvs = some l := by
  intro l
  induction l with
  | nil => intro _ _; rfl
  | cons p rest ih =>
    intro kvs h
    rw [List.map_cons, decodeFields, h p (List.mem_cons_self _ _),
      ih (fun q hq => h q (List.mem_cons_of_mem _ hq))]

/-- C4: encoding a generated entity value and then decoding the result
reproduces the value in every field; the wire form is a single flat object
whose member list carries the versioned fields at the same level as the
not-versioned fields; and decoding separates the flat object back into the
not-versioned part and the versioned (`VersionedEntity`) part. -/
theorem c4_entity_roundTrip (e : EntityValue)
    (hnodup : ((e.notVersioned ++ e.versioned).map Prod.fst).Nodup) :
    decodeEntity (e.notVersioned.map Prod.fst) (e.versioned.map Prod.fst)
        (encodeEntity e) = some e ∧
    (∃ members, encodeEntity e = Json.obj members ∧
      members.map Prod.fst
        = e.notVersioned.map Prod.fst ++ e.versioned.map Prod.fst) := by
  rw [List.map_append, List.nodup_append] at hnodup
  obtain ⟨ha, hb, hdisj⟩ := hnodup
  have hlookA : ∀ p ∈ e.notVersioned,
      lookupMember p.1 (e.notVersioned ++ e.versioned) = some p.2 := by
    intro p hp
    rw [lookupMember_append, lookupMember_eq_of_mem ha hp]
  have hlookB : ∀ p ∈ e.versioned,
      lookupMember p.1 (e.notVersioned ++ e.versioned) = some p.2 := by
    intro p hp
    have hnotA : p.1 ∉ e.notVersioned.map Prod.fst := by
      intro hmem
      exact hdisj hmem (List.mem_map_of_mem Prod.fst hp)
    rw [lookupMember_append, lookupMember_eq_none hnotA,
      lookupMember_eq_of_mem hb hp]
  refine ⟨?_, e.notVersioned ++ e.versioned, rfl, List.map_append _ _ _⟩
  rw [encodeEntity, decodeEntity, decodeFields_of_lookup hlookA,
    decodeFields_of_lookup hlookB]

/-- A sample entity value: one not-versioned field, one versioned field. -/
def sampleEntity : EntityValue :=
  ⟨[("id", Json.str "f1e2")], [("label", Json.str "bank")]⟩

/-- C4 witness at a concrete entity value. -/
theorem c4_entity_roundTrip_witness :
    decodeEntity (sampleEntity.notVersioned.map Prod.fst)
        (sampleEntity.versioned.map Prod.fst) (encodeEntity sampleEntity)
      = some sampleEntity := by
  exact (c4_entity_roundTrip sampleEntity (by decide)).1

/-! ## The generated Create / Update builders -/

/-- An instance of a generated `[<Create $name>]` builder: one value per
create-required field and one optional value per create-optional field, each
list in generated (= schema) order. -/
structure CreateValue where
  required : List (String × Json)
  optional : List (String × Option Json)
deriving Repr

/-- `[<Create $name>]::new` (`src/utils.rs` lines 445-458): takes one value
per create-required field, pairing them positionally in accumulator order, and
defaults every create-optional field to `None`. -/
def createNew (fields : List FieldDecl) (args : List Json) : CreateValue :=
  { required := (create_binding fields).create_new.zip args,
    optional := (create_binding fields).create.map (fun f => (f, Option.none)) }

/-- Update the named field of a field list, leaving every other field
unchanged: the meaning of Rust's struct-update expression
`Self { $field: value, ..self }` on a struct modelled as a keyed field
list. -/
def setField {α : Type} (f : String) (x : α) : List (String × α) → List (String × α)
  | [] => []
  | (k, a) :: rest =>
    if k = f then (k, x) :: setField f x rest else (k, a) :: setField f x rest

/-- The create-optional setter (`src/utils.rs` lines 460-467):
`Self { $c_field: Some(v), ..self }` - the named field becomes `Some v`,
every other field is taken unchanged from the receiver. -/
def setCreateOptional (c : CreateValue) (f : String) (v : Json) : CreateValue :=
  { c with optional := setField f (some v) c.optional }

/-- The field-name surface of the generated `[<Create $name>]` type:
its fields are exactly the create-required then create-optional ones
(`src/utils.rs` lines 430-443). -/
def createTypeFields (fields : List FieldDecl) : List String :=
  (create_binding fields).create_new ++ (create_binding fields).create

/-- An instance of a generated `[<Update $name>]` builder
(`src/utils.rs` lines 498-513). -/
structure UpdateValue where
  required : List (String × Json)
  optional : List (String × Option Json)
deriving Repr

/-- `[<Update $name>]::new` (`src/utils.rs` lines 515-528). -/
def updateNew (fields : List FieldDecl) (args : List Json) : UpdateValue :=
  { required := (create_binding fields).update_new.zip args,
    optional := (create_binding fields).update.map (fun f => (f, Option.none)) }

/-- The update-optional setter (`src/utils.rs` lines 530-537). -/
def setUpdateOptional (u : UpdateValue) (f : String) (v : Json) : UpdateValue :=
  { u with optional := setField f (some v) u.optional }

def updateTypeFields (fields : List FieldDecl) : List String :=
  (create_binding fields).update_new ++ (create_binding fields).update

/-- The generated search setter `and_<field>` (`src/utils.rs` lines 487-495):
`Self { $se_field: Some(query.to_criteria()?), ..self }`. -/
def setSearchCriterion (sv : SearchValue) (f : String) (q : SearchQuery) :
    SearchValue :=
  ⟨setField f (some (to_criteria q)) sv.criteria⟩

/-- Setting a present field writes the new value at that field's slot. -/
theorem lookupMember_setField_self {α : Type} (f : String) (x : α) :
    ∀ (l : List (String × α)), f ∈ l.map Prod.fst →
      lookupMember f (setField f x l) = some x := by
  intro l
  induction l with
  | nil => intro h; cases h
  | cons p rest ih =>
    intro h
    obtain ⟨k, a⟩ := p
    by_cases hk : k = f
    · subst hk
      simp [setField, lookupMember]
    · rw [List.map_cons, List.mem_cons] at h
      have h' : f ∈ rest.map Prod.fst := by
        rcases h with h1 | h1
        · exact absurd h1.symm hk
        · exact h1
      simp only [setField, if_neg hk, lookupMember]
      exact ih h'

/-- Setting one field leaves the slot of every other field unchanged. -/
theorem lookupMember_setField_other {α : Type} (f g : String) (x : α)
    (hne : g ≠ f) :
    ∀ (l : List (String × α)), lookupMember g (setField f x l) = lookupMember g l := by
  intro l
  induction l with
  | nil => rfl
  | cons p rest ih =>
    obtain ⟨k, a⟩ := p
    by_cases hk : k = f
    · subst hk
      have hkg : ¬k = g := fun h => hne h.symm
      simp only [setField, if_pos rfl, lookupMember, if_neg hkg]
      exact ih
    · by_cases hg : k = g <;>
        simp_all [setField, lookupMember]

theorem map_fst_map_pair {α β : Type} (y : β) (l : List α) :
    ((l.map (fun f => (f, y))).map Prod.fst) = l := by
  induction l with
  | nil => rfl
  | cons a l ih => simp [ih]

/-- C5: for every valid entity schema, the generated `CreateEntity`
constructor takes exactly the create-required fields, in schema order, as its
mandatory arguments and returns a builder whose every create-optional field is
`None`; each create-optional field has a setter producing a builder with that
field set; fields in neither create set do not occur in the type at all; and
the generated `UpdateEntity` satisfies the identical contract with the
update-required / update-optional sets. -/
theorem c5_builders (s : List SchemaField) (args uargs : List Json)
    (hnodup : (s.map SchemaField.name).Nodup)
    (hargs : (partitionSchema s).create_new.length = args.length)
    (huargs : (partitionSchema s).update_new.length = uargs.length) :
    ((createNew (toFields s) args).required.map Prod.fst
        = (s.filter fun f => f.tag.createMode = Mode.required).map SchemaField.name) ∧
    (∀ p ∈ (createNew (toFields s) args).optional, p.2 = Option.none) ∧
    ((createNew (toFields s) args).optional.map Prod.fst
        = (s.filter fun f => f.tag.createMode = Mode.optional).map SchemaField.name) ∧
    (∀ (c : CreateValue) (f : String) (v : Json), f ∈ c.optional.map Prod.fst →
        lookupMember f (setCreateOptional c f v).optional = some (some v)) ∧
    (∀ f ∈ s, f.tag.createMode = Mode.none →
        f.name ∉ createTypeFields (toFields s)) ∧
    ((updateNew (toFields s) uargs).required.map Prod.fst
        = (s.filter fun f => f.tag.updateMode = Mode.required).map SchemaField.name) ∧
    (∀ p ∈ (updateNew (toFields s) uargs).optional, p.2 = Option.none) ∧
    ((updateNew (toFields s) uargs).optional.map Prod.fst
        = (s.filter fun f => f.tag.updateMode = Mode.optional).map SchemaField.name) ∧
    (∀ (u : UpdateValue) (f : String) (v : Json), f ∈ u.optional.map Prod.fst →
        lookupMember f (setUpdateOptional u f v).optional = some (some v)) ∧
    (∀ f ∈ s, f.tag.updateMode = Mode.none →
        f.name ∉ updateTypeFields (toFields s)) := by
  have hcn := partitionSchema_proj .createRequired s
  have hco := partitionSchema_proj .createOptional s
  have hun := partitionSchema_proj .updateRequired s
  have huo := partitionSchema_proj .updateOptional s
  refine ⟨?_, ?_, ?_, ?_, ?_, ?_, ?_, ?_, ?_, ?_⟩
  · have hlen : (create_binding (toFields s)).create_new.length = args.length := hargs
    show ((create_binding (toFields s)).create_new.zip args).map Prod.fst = _
    rw [List.map_fst_zip _ _ (le_of_eq hlen)]
    exact hcn
  · intro p hp
    rcases List.mem_map.mp hp with ⟨f, _, rfl⟩
    rfl
  · show ((create_binding (toFields s)).create.map (fun f => (f, Option.none))).map
        Prod.fst = _
    rw [map_fst_map_pair]
    exact hco
  · intro c f v hf
    exact lookupMember_setField_self f (some v) c.optional hf
  · intro f hf hnone hmem
    rw [createTypeFields, List.mem_append] at hmem
    rcases hmem with hmem | hmem
    · have := (mem_partitionSchema_proj hnodup .createRequired hf).mp hmem
      simp [tagPred, hnone] at this
    · have := (mem_partitionSchema_proj hnodup .createOptional hf).mp hmem
      simp [tagPred, hnone] at this
  · have hlen : (create_binding (toFields s)).update_new.length = uargs.length := huargs
    show ((create_binding (toFields s)).update_new.zip uargs).map Prod.fst = _
    rw [List.map_fst_zip _ _ (le_of_eq hlen)]
    exact hun
  · intro p hp
    rcases List.mem_map.mp hp with ⟨f, _, rfl⟩
    rfl
  · show ((create_binding (toFields s)).update.map (fun f => (f, Option.none))).map
        Prod.fst = _
    rw [map_fst_map_pair]
    exact huo
  · intro u f v hf
    exact lookupMember_setField_self f (some v) u.optional hf
  · intro f hf hnone hmem
    rw [updateTypeFields, List.mem_append] at hmem
    rcases hmem with hmem | hmem
    · have := (mem_partitionSchema_proj hnodup .updateRequired hf).mp hmem
      simp [tagPred, hnone] at this
    · have := (mem_partitionSchema_proj hnodup .updateOptional hf).mp hmem
      simp [tagPred, hnone] at this

/-- C5 witness at the sample schema: `CreateTag::new` takes exactly `label`,
leaves `edited` unset, and `created` (in neither create set) is not a field of
the create type. -/
theorem c5_builders_witness :
    (createNew (toFields sampleSchema) [Json.str "work"]).required.map Prod.fst
      = ["label"] ∧
    (∀ p ∈ (createNew (toFields sampleSchema) [Json.str "work"]).optional,
      p.2 = Option.none) ∧
    "created" ∉ createTypeFields (toFields sampleSchema) ∧
    (updateNew (toFields sampleSchema)
        [Json.str "id0", Json.str "work"]).required.map Prod.fst
      = ["id", "label"] := by
  have h := c5_builders sampleSchema [Json.str "work"]
    [Json.str "id0", Json.str "work"] (by decide) (by decide) (by decide)
  refine ⟨?_, h.2.1, ?_, ?_⟩
  · rw [h.1]; rfl
  · exact h.2.2.2.2.1 createdField (by decide) rfl
  · rw [h.2.2.2.2.2.1]; rfl

/-- C10: every generated builder setter is frame-preserving.  The create and
update optional-field setters and the search `and_<field>` setter write
`Some value` (for search, `Some (to_criteria query)`) into the named field's
slot and leave every other field's slot - and, for create/update, the whole
required-field part - unchanged. -/
theorem c10_setters_frame :
    (∀ (c : CreateValue) (f g : String) (v : Json),
      (setCreateOptional c f v).required = c.required ∧
      (g ≠ f → lookupMember g (setCreateOptional c f v).optional
        = lookupMember g c.optional) ∧
      (f ∈ c.optional.map Prod.fst →
        lookupMember f (setCreateOptional c f v).optional = some (some v))) ∧
    (∀ (u : UpdateValue) (f g : String) (v : Json),
      (setUpdateOptional u f v).required = u.required ∧
      (g ≠ f → lookupMember g (setUpdateOptional u f v).optional
        = lookupMember g u.optional) ∧
      (f ∈ u.optional.map Prod.fst →
        lookupMember f (setUpdateOptional u f v).optional = some (some v))) ∧
    (∀ (sv : SearchValue) (f g : String) (q : SearchQuery),
      (g ≠ f → lookupMember g (setSearchCriterion sv f q).criteria
        = lookupMember g sv.criteria) ∧
      (f ∈ sv.criteria.map Prod.fst →
        lookupMember f (setSearchCriterion sv f q).criteria
          = some (some (to_criteria q)))) := by
  refine ⟨?_, ?_, ?_⟩
  · intro c f g v
    exact ⟨rfl, fun hne => lookupMember_setField_other f g (some v) hne c.optional,
      fun hf => lookupMember_setField_self f (some v) c.optional hf⟩
  · intro u f g v
    exact ⟨rfl, fun hne => lookupMember_setField_other f g (some v) hne u.optional,
      fun hf => lookupMember_setField_self f (some v) u.optional hf⟩
  · intro sv f g q
    exact ⟨fun hne => lookupMember_setField_other f g (some (to_criteria q)) hne sv.criteria,
      fun hf => lookupMember_setField_self f (some (to_criteria q)) sv.criteria hf⟩

/-- C10 witness: setting `edited` on a builder with slots `edited` and `url`
writes `edited` and leaves `url` untouched. -/
theorem c10_setters_frame_witness :
    lookupMember "edited"
        (setCreateOptional ⟨[], [("edited", Option.none), ("url", Option.none)]⟩
          "edited" (Json.num 5)).optional
      = some (some (Json.num 5)) ∧
    lookupMember "url"
        (setCreateOptional ⟨[], [("edited", Option.none), ("url", Option.none)]⟩
          "edited" (Json.num 5)).optional
      = some Option.none := by
  have h := (c10_setters_frame.1
    ⟨[], [("edited", Option.none), ("url", Option.none)]⟩ "edited" "url" (Json.num 5))
  refine ⟨h.2.2 (by simp), ?_⟩
  rw [h.2.1 (by simp)]
  rfl

/-! ## The CRUD call surface -/

/-- HTTP methods used by the client. -/
inductive Method where
  | GET
  | POST
  | DELETE
  | PATCH
deriving DecidableEq, Repr

/-- One wire request: the path the request goes to and its HTTP verb. -/
structure WireCall where
  path : String
  method : Method
deriving DecidableEq, Repr

/-- The operations `create_calls!` can synthesize. -/
inductive Operation where
  | list
  | get
  | find
  | create
  | update
  | delete
  | restore
deriving DecidableEq, Repr

/-- The single wire call each method generated by `create_calls!` issues
(`src/utils.rs` lines 185-298): `list`/`get`/`find`/`create`/`update` go
through `passwords_post`, `delete` through `passwords_delete`, `restore`
through `passwords_patch`, each on `concat!(endpoint, suffix)` with the fixed
suffix of its arm. -/
def create_calls (endpoint : String) : Operation → WireCall
  | .list => ⟨endpoint ++ "/list", .POST⟩
  | .get => ⟨endpoint ++ "/show", .POST⟩
  | .find => ⟨endpoint ++ "/find", .POST⟩
  | .create => ⟨endpoint ++ "/create", .POST⟩
  | .update => ⟨endpoint ++ "/update", .POST⟩
  | .delete => ⟨endpoint ++ "/delete", .DELETE⟩
  | .restore => ⟨endpoint ++ "/restore", .PATCH⟩

/-- The hand-written `PasswordApi` operations (`src/password.rs` lines
17-176): each issues exactly one call with a literal path and the verb of the
`passwords_post` / `passwords_delete` / `passwords_patch` helper it uses. -/
def passwordApiCall : Operation → WireCall
  | .list => ⟨"1.0/password/list", .POST⟩
  | .get => ⟨"1.0/password/show", .POST⟩
  | .find => ⟨"1.0/password/find", .POST⟩
  | .create => ⟨"1.0/password/create", .POST⟩
  | .update => ⟨"1.0/password/update", .POST⟩
  | .delete => ⟨"1.0/password/delete", .DELETE⟩
  | .restore => ⟨"1.0/password/restore", .PATCH⟩

/-- Spec side: the fixed path suffix of the operation table in §4.4 of the
spec. -/
def spec_suffix : Operation → String
  | .list => "/list"
  | .get => "/show"
  | .find => "/find"
  | .create => "/create"
  | .update => "/update"
  | .delete => "/delete"
  | .restore => "/restore"

/-- Spec side: the fixed HTTP verb of the operation table in §4.4 of the
spec. -/
def spec_verb : Operation → Method
  | .delete => .DELETE
  | .restore => .PATCH
  | _ => .POST

/-- The hand-written `FolderApi` operations (`src/folder.rs` lines 15-151):
each issues exactly one call with a literal path and the verb of the
`passwords_post` / `passwords_delete` / `passwords_patch` helper it uses. -/
def folderApiCall : Operation → WireCall
  | .list => ⟨"1.0/folder/list", .POST⟩
  | .get => ⟨"1.0/folder/show", .POST⟩
  | .find => ⟨"1.0/folder/find", .POST⟩
  | .create => ⟨"1.0/folder/create", .POST⟩
  | .update => ⟨"1.0/folder/update", .POST⟩
  | .delete => ⟨"1.0/folder/delete", .DELETE⟩
  | .restore => ⟨"1.0/folder/restore", .PATCH⟩

/-- `TagApi` is generated by `create_calls!` with `Endpoint = "1.0/tag"` and
all seven operations enabled (`src/tag.rs` lines 4-79). -/
def tagApiCall : Operation → WireCall :=
  create_calls "1.0/tag"

/-- The hand-written `ShareApi` operations (`src/share.rs` lines 11-167),
`none` when the operation is not offered: `restore` does not exist;
`list`/`get`/`find` go through `passwords_post` on the `1.0/share` prefix;
`create`/`update`/`delete` go through `passwords_post` - HTTP POST - on the
deviant prefix `/api/1.0/share`. -/
def shareApiCall : Operation → Option WireCall
  | .list => some ⟨"1.0/share/list", .POST⟩
  | .get => some ⟨"1.0/share/show", .POST⟩
  | .find => some ⟨"1.0/share/find", .POST⟩
  | .create => some ⟨"/api/1.0/share/create", .POST⟩
  | .update => some ⟨"/api/1.0/share/update", .POST⟩
  | .delete => some ⟨"/api/1.0/share/delete", .POST⟩
  | .restore => Option.none

/-- C6 counterexample: `ShareApi` does offer `delete` (`src/share.rs` lines
96-106), but it issues it with `passwords_post` - HTTP POST, not DELETE - and
on `/api/1.0/share/delete` rather than the entity's own endpoint prefix
`1.0/share` (the one its list/show/find use) followed by `/delete`.  So the
claim fails at the share entity's delete operation. -/
theorem c6_share_delete_counterexample :
    shareApiCall Operation.delete
      = some ⟨"/api/1.0/share/delete", Method.POST⟩ ∧
    shareApiCall Operation.delete
      ≠ some ⟨"1.0/share" ++ spec_suffix Operation.delete,
              spec_verb Operation.delete⟩ ∧
    Method.POST ≠ Method.DELETE := by
  refine ⟨rfl, ?_, by decide⟩
  intro h
  rw [shareApiCall] at h
  simp only [Option.some_inj] at h
  exact Method.noConfusion (congrArg WireCall.method h)

/-- C6 amended: every operation surface generated by `create_calls!` - and
the hand-written `PasswordApi`, `FolderApi` and `TagApi` - issues, per
operation, exactly one wire call on the entity's endpoint prefix followed by
the fixed suffix `/list`, `/show`, `/find`, `/create`, `/update`, `/delete`
or `/restore`, with POST for list/get/find/create/update, DELETE for delete
and PATCH for restore.  The hand-written `ShareApi` deviates: it offers no
restore, its list/get/find conform at prefix `1.0/share`, and its
create/update/delete are issued as POST on the prefix `/api/1.0/share` - in
particular its delete uses POST, not DELETE. -/
theorem c6_call_surface_amended :
    (∀ (endpoint : String) (op : Operation),
      create_calls endpoint op = ⟨endpoint ++ spec_suffix op, spec_verb op⟩) ∧
    (∀ op : Operation, passwordApiCall op = create_calls "1.0/password" op) ∧
    (∀ op : Operation, folderApiCall op = create_calls "1.0/folder" op) ∧
    (∀ op : Operation, tagApiCall op = create_calls "1.0/tag" op) ∧
    shareApiCall Operation.restore = Option.none ∧
    (∀ op : Operation, op ∈ [Operation.list, Operation.get, Operation.find] →
      shareApiCall op = some (create_calls "1.0/share" op)) ∧
    (∀ op : Operation,
      op ∈ [Operation.create, Operation.update, Operation.delete] →
      shareApiCall op = some ⟨"/api/1.0/share" ++ spec_suffix op, Method.POST⟩) := by
  refine ⟨?_, ?_, ?_, ?_, rfl, ?_, ?_⟩
  · intro endpoint op
    cases op <;> rfl
  · intro op
    cases op <;> rfl
  · intro op
    cases op <;> rfl
  · intro op
    cases op <;> rfl
  · intro op
    cases op <;> decide
  · intro op
    cases op <;> decide

/-- C6 witness: the deviant share delete and a conforming share list,
obtained from the amended theorem at concrete operations. -/
theorem c6_call_surface_amended_witness :
    shareApiCall Operation.delete
      = some ⟨"/api/1.0/share" ++ spec_suffix Operation.delete, Method.POST⟩ ∧
    shareApiCall Operation.list
      = some (create_calls "1.0/share" Operation.list) := by
  have h := c6_call_surface_amended
  exact ⟨h.2.2.2.2.2.2 Operation.delete (by decide),
    h.2.2.2.2.2.1 Operation.list (by decide)⟩

/-! ## Session lifecycle -/

/-- The wire shape of an application-level endpoint error
(`src/lib.rs` lines 137-142). -/
structure EndpointError where
  status : String
  id : Nat
  message : String
deriving DecidableEq, Repr

/-- The client error enumeration (`src/lib.rs` lines 117-135); payloads of
the transport / time / serde variants are irrelevant to the claims and
dropped. -/
inductive Error where
  | ApiError
  | ConnectionFailed
  | DisconnectionFailed
  | TimeError
  | InvalidSetting
  | Serde
  | EndpointError (e : EndpointError)
  | LoginFlowError (code : Nat)
deriving DecidableEq, Repr

/-- `LoginDetails` (`src/lib.rs` lines 155-162). -/
structure LoginDetails where
  server : String
  login_name : String
  app_password : String
deriving DecidableEq, Repr

/-- `ResumeState` (`src/lib.rs` lines 222-233).  `shutdown_time` is
represented at use sites by the elapsed whole seconds computed from it
(`SystemTime::elapsed()?.as_secs()`); the `Err` case of `elapsed()` returns
`Error::TimeError` before the branch the claims are about. -/
structure ResumeState where
  server_url : String
  password_url : String
  keepalive : Nat
  session_id : String
  login : String
  password : String
deriving DecidableEq, Repr

/-- `AuthenticatedApi` (`src/lib.rs` lines 236-246), minus the reqwest client
handle. -/
structure AuthenticatedApi where
  server_url : String
  passwords_url : String
  session_id : String
  keepalive : Nat
  login : String
  password : String
deriving DecidableEq, Repr

/-- The server's side of the session exchanges: the `success` flag and
`X-API-SESSION` header of `POST 1.0/session/open`, the answer to the
`user.session.lifetime` settings query, and the `success` flag of
`GET 1.0/session/keepalive`. -/
structure ServerResponses where
  openSuccess : Bool
  openSessionId : String
  sessionLifetime : Nat
  keepaliveSuccess : Bool
deriving DecidableEq, Repr

/-- `AuthenticatedApi::new_session` (`src/lib.rs` lines 387-429): POST to
`{passwords_url}/1.0/session/open` with the given credentials, fail with
`ConnectionFailed` when the response's `success` is false, otherwise take the
session id from the `X-API-SESSION` response header and fetch the keepalive
interval with one `1.0/settings/get` query; returns the api value and the
session id.  (The settings query is modelled as answered by the server.) -/
def new_session (srv : ServerResponses) (d : LoginDetails) :
    List WireCall × Except Error (AuthenticatedApi × String) :=
  let passwords_url := d.server ++ "index.php/apps/passwords/api/"
  let openCall : WireCall := ⟨passwords_url ++ "/1.0/session/open", .POST⟩
  if srv.openSuccess = false then
    ([openCall], .error .ConnectionFailed)
  else
    ([openCall, ⟨"1.0/settings/get", .POST⟩],
     .ok (⟨d.server, passwords_url, srv.openSessionId, srv.sessionLifetime,
           d.login_name, d.app_password⟩, srv.openSessionId))

/-- Outcome of `resume_session`: a session and its id, an error, or the panic
of `assert!(s.success)` in the keepalive branch. -/
inductive ResumeResult where
  | ok (api : AuthenticatedApi) (session_id : String)
  | err (e : Error)
  | panicked
deriving DecidableEq, Repr

/-- `AuthenticatedApi::resume_session` (`src/lib.rs` lines 355-385): when the
elapsed seconds since the recorded shutdown exceed the keepalive interval,
create a brand-new session from the saved credentials; otherwise rebuild the
api value from the saved state, issue one `GET 1.0/session/keepalive`,
`assert!` its success, and return the saved session id. -/
def resume_session (srv : ServerResponses) (st : ResumeState)
    (elapsedSecs : Nat) : List WireCall × ResumeResult :=
  if elapsedSecs > st.keepalive then
    match new_session srv ⟨st.server_url, st.login, st.password⟩ with
    | (calls, .ok (api, sid)) => (calls, .ok api sid)
    | (calls, .error e) => (calls, .err e)
  else
    let api : AuthenticatedApi :=
      ⟨st.server_url, st.password_url, st.session_id, st.keepalive,
       st.login, st.password⟩
    if srv.keepaliveSuccess then
      ([⟨"1.0/session/keepalive", .GET⟩], .ok api st.session_id)
    else
      ([⟨"1.0/session/keepalive", .GET⟩], .panicked)

/-- C7: when the elapsed time since the recorded shutdown is at most the
keepalive interval, `resume_session` issues exactly one call - the keepalive -
and (when the server acknowledges it) returns a session carrying the saved
session token unchanged; when the elapsed time exceeds the interval, it
performs the full re-authentication with the originally saved credentials,
issuing the session-open call (plus the keepalive-interval settings query) and
yielding the session token freshly issued by the server. -/
theorem c7_resume_session (srv : ServerResponses) (st : ResumeState)
    (elapsedSecs : Nat) :
    (elapsedSecs ≤ st.keepalive →
      (resume_session srv st elapsedSecs).1
        = [⟨"1.0/session/keepalive", Method.GET⟩] ∧
      (srv.keepaliveSuccess = true →
        (resume_session srv st elapsedSecs).2
          = ResumeResult.ok
              ⟨st.server_url, st.password_url, st.session_id, st.keepalive,
               st.login, st.password⟩ st.session_id)) ∧
    (elapsedSecs > st.keepalive →
      (resume_session srv st elapsedSecs
          = match new_session srv ⟨st.server_url, st.login, st.password⟩ with
            | (calls, .ok (api, sid)) => (calls, .ok api sid)
            | (calls, .error e) => (calls, .err e)) ∧
      (srv.openSuccess = true →
        (resume_session srv st elapsedSecs).1
          = [⟨st.server_url ++ "index.php/apps/passwords/api/"
                ++ "/1.0/session/open", Method.POST⟩,
             ⟨"1.0/settings/get", Method.POST⟩] ∧
        (resume_session srv st elapsedSecs).2
          = ResumeResult.ok
              ⟨st.server_url, st.server_url ++ "index.php/apps/passwords/api/",
               srv.openSessionId, srv.sessionLifetime, st.login, st.password⟩
              srv.openSessionId)) := by
  constructor
  · intro hle
    have hngt : ¬ elapsedSecs > st.keepalive := not_lt.mpr hle
    constructor
    · rw [resume_session, if_neg hngt]
      by_cases hka : srv.keepaliveSuccess <;> simp [hka]
    · intro hka
      rw [resume_session, if_neg hngt]
      simp [hka]
  · intro hgt
    refine ⟨by rw [resume_session, if_pos hgt], ?_⟩
    intro hopen
    have hno : ¬ srv.openSuccess = false := by simp [hopen]
    rw [resume_session, if_pos hgt]
    rw [show new_session srv ⟨st.server_url, st.login, st.password⟩
        = ([⟨st.server_url ++ "index.php/apps/passwords/api/"
              ++ "/1.0/session/open", Method.POST⟩,
            ⟨"1.0/settings/get", Method.POST⟩],
           .ok (⟨st.server_url,
                 st.server_url ++ "index.php/apps/passwords/api/",
                 srv.openSessionId, srv.sessionLifetime, st.login,
                 st.password⟩, srv.openSessionId)) from by
      rw [new_session, if_neg hno]]
    exact ⟨rfl, rfl⟩

/-- A saved resume state for the witnesses. -/
def sampleState : ResumeState :=
  ⟨"https://cloud.example/", "https://cloud.example/index.php/apps/passwords/api/",
   600, "sess-1", "alice", "app-pw"⟩

/-- Server behaviour for the witnesses. -/
def sampleServer : ServerResponses := ⟨true, "sess-2", 900, true⟩

/-- C7 witness: both branches at concrete states.  With 600 elapsed seconds
and keepalive 600 the saved token `sess-1` is kept after one keepalive call;
with 601 elapsed seconds the session is rebuilt by re-authentication and
carries the freshly issued token `sess-2`. -/
theorem c7_resume_session_witness :
    (resume_session sampleServer sampleState 600).1
      = [⟨"1.0/session/keepalive", Method.GET⟩] ∧
    (resume_session sampleServer sampleState 600).2
      = ResumeResult.ok
          ⟨"https://cloud.example/",
           "https://cloud.example/index.php/apps/passwords/api/",
           "sess-1", 600, "alice", "app-pw"⟩ "sess-1" ∧
    (resume_session sampleServer sampleState 601).2
      = ResumeResult.ok
          ⟨"https://cloud.example/",
           "https://cloud.example/index.php/apps/passwords/api/",
           "sess-2", 900, "alice", "app-pw"⟩ "sess-2" := by
  have h1 := (c7_resume_session sampleServer sampleState 600).1 (by decide)
  have h2 := ((c7_resume_session sampleServer sampleState 601).2 (by decide)).2 rfl
  refine ⟨h1.1, ?_, ?_⟩
  · rw [h1.2 rfl]
    rfl
  · rw [h2.2]
    rfl

/-! ## Response decoding and disconnect -/

/-- Decode a JSON string. -/
def decodeString : Json → Option String
  | .str s => some s
  | _ => Option.none

/-- Decode a JSON number as a `u64`. -/
def decodeU64 : Json → Option Nat
  | .num n => if 0 ≤ n then some n.toNat else Option.none
  | _ => Option.none

/-- serde deserialization of the `EndpointError` struct `{status, id,
message}` (`src/lib.rs` lines 137-142): all three fields must be present with
their types; extra members are ignored (serde's default). -/
def decodeEndpointError (j : Json) : Option EndpointError :=
  match j with
  | .obj kvs =>
    match lookupMember "status" kvs, lookupMember "id" kvs,
        lookupMember "message" kvs with
    | some sj, some ij, some mj =>
      match decodeString sj, decodeU64 ij, decodeString mj with
      | some st, some i, some m => some ⟨st, i, m⟩
      | _, _, _ => Option.none
    | _, _, _ => Option.none
  | _ => Option.none

/-- `EndpointResponse` (`src/lib.rs` lines 144-149): either the error shape
or the raw success payload. -/
inductive EndpointResponse (T : Type) where
  | error (e : EndpointError)
  | success (t : T)
deriving Repr

/-- serde deserialization of the `#[serde(untagged)]` `EndpointResponse<T>`:
untagged enums try their variants in declaration order, so the `Error` shape
is probed first and the payload shape only if the error shape does not
match. -/
def decodeEndpointResponse {T : Type} (decodeT : Json → Option T) (j : Json) :
    Option (EndpointResponse T) :=
  match decodeEndpointError j with
  | some e => some (.error e)
  | Option.none =>
    match decodeT j with
    | some t => some (.success t)
    | Option.none => Option.none

/-- `AuthenticatedApi::passwords_request` (`src/lib.rs` lines 279-295): parse
the response text as an `EndpointResponse<R>` (text that is not valid JSON -
modelled by `Option.none` - or matches neither shape is the serde decoding
error), then return the payload of `Success` and turn the `Error` shape into
`Error::EndpointError`. -/
def passwords_request {T : Type} (decodeT : Json → Option T)
    (body : Option Json) : Except Error T :=
  match body with
  | Option.none => .error .Serde
  | some j =>
    match decodeEndpointResponse decodeT j with
    | Option.none => .error .Serde
    | some (.error e) => .error (.EndpointError e)
    | some (.success t) => .ok t

/-- C8: a response body that decodes as the `{status, id, message}` error
shape yields a typed endpoint error carrying the server's data - even when
the body would also decode as the success payload, since the error shape is
probed first; a body that decodes only as the success payload yields that
payload; a body that decodes as neither shape (or is not JSON) yields the
serde decoding error, which is distinct from every endpoint error. -/
theorem c8_response_decoding {T : Type} (decodeT : Json → Option T)
    (j : Json) :
    (∀ e, decodeEndpointError j = some e →
      passwords_request decodeT (some j) = .error (.EndpointError e)) ∧
    (decodeEndpointError j = Option.none → ∀ t, decodeT j = some t →
      passwords_request decodeT (some j) = .ok t) ∧
    (decodeEndpointError j = Option.none → decodeT j = Option.none →
      passwords_request decodeT (some j) = .error .Serde) ∧
    (∀ e, (Error.Serde : Error) ≠ .EndpointError e) ∧
    passwords_request decodeT Option.none = .error .Serde := by
  refine ⟨?_, ?_, ?_, ?_, rfl⟩
  · intro e he
    rw [passwords_request, decodeEndpointResponse, he]
  · intro hnone t ht
    rw [passwords_request, decodeEndpointResponse, hnone, ht]
  · intro hnone ht
    rw [passwords_request, decodeEndpointResponse, hnone, ht]
  · intro e h
    exact Error.noConfusion h

/-- A response body in the error shape (it also carries an extra member, which
serde ignores). -/
def sampleErrorBody : Json :=
  .obj [("status", .str "error"), ("id", .num 404),
        ("message", .str "Invalid revision id"), ("extra", .bool true)]

/-- C8 witness: the error body yields the typed endpoint error even though a
permissive payload decoder would also accept it; a bare string yields the
payload; a null body yields the serde error. -/
theorem c8_response_decoding_witness :
    passwords_request some (some sampleErrorBody)
      = .error (.EndpointError ⟨"error", 404, "Invalid revision id"⟩) ∧
    passwords_request decodeString (some (Json.str "ok"))
      = .ok "ok" ∧
    passwords_request decodeString (some Json.null)
      = .error .Serde := by
  refine ⟨?_, ?_, ?_⟩
  · exact (c8_response_decoding some sampleErrorBody).1 _ rfl
  · exact (c8_response_decoding decodeString (Json.str "ok")).2.1 rfl _ rfl
  · exact (c8_response_decoding decodeString Json.null).2.2.1 rfl rfl

/-- The parsed body of `GET 1.0/session/close` (`src/lib.rs` lines 433-436). -/
structure CloseSession where
  success : Bool
deriving DecidableEq, Repr

/-- `AuthenticatedApi::disconnect` (`src/lib.rs` lines 432-444): `self` is
taken by value (moved into the call), so the local session value is gone in
every outcome - modelled by returning no session; one `GET 1.0/session/close`
is issued, and a response with `success == false` is reported as
`DisconnectionFailed`.  (When the wire call itself fails, the source's
`.unwrap()` panics, which also consumes the moved session.) -/
def disconnect (_api : AuthenticatedApi) (resp : CloseSession) :
    List WireCall × Option AuthenticatedApi × Except Error Unit :=
  ([⟨"1.0/session/close", .GET⟩], Option.none,
   if resp.success = false then .error .DisconnectionFailed else .ok ())

/-- C9: disconnect issues the close call; a server that rejects the clean
close is reported as the disconnection error; and in every outcome the
session value is consumed and no session is handed back, so no further
operation can use it. -/
theorem c9_disconnect (api : AuthenticatedApi) (resp : CloseSession) :
    (disconnect api resp).1 = [⟨"1.0/session/close", Method.GET⟩] ∧
    (disconnect api resp).2.1 = Option.none ∧
    (resp.success = false →
      (disconnect api resp).2.2 = .error .DisconnectionFailed) ∧
    (resp.success = true → (disconnect api resp).2.2 = .ok ()) := by
  refine ⟨rfl, rfl, ?_, ?_⟩
  · intro h
    simp [disconnect, h]
  · intro h
    simp [disconnect, h]

/-- C9 witness: a rejected close on a concrete session reports the
disconnection error while handing back no session; an accepted close succeeds
and also hands back no session. -/
theorem c9_disconnect_witness :
    (disconnect ⟨"s", "p", "sess-1", 600, "alice", "pw"⟩ ⟨false⟩).2.1
      = Option.none ∧
    (disconnect ⟨"s", "p", "sess-1", 600, "alice", "pw"⟩ ⟨false⟩).2.2
      = .error .DisconnectionFailed ∧
    (disconnect ⟨"s", "p", "sess-1", 600, "alice", "pw"⟩ ⟨true⟩).2.2
      = .ok () := by
  refine ⟨?_, ?_, ?_⟩
  · exact (c9_disconnect ⟨"s", "p", "sess-1", 600, "alice", "pw"⟩ ⟨false⟩).2.1
  · exact (c9_disconnect ⟨"s", "p", "sess-1", 600, "alice", "pw"⟩ ⟨false⟩).2.2.1 rfl
  · exact (c9_disconnect ⟨"s", "p", "sess-1", 600, "alice", "pw"⟩ ⟨true⟩).2.2.2 rfl

end Npc
